import Mathlib

set_option maxRecDepth 8192

/-!
Verification of the signing-and-dispatch core of a Python SDK for a
media-hosting REST API.  The definitions below are a shallow embedding of
the functions in `publitio/publitio.py`, `publitio.py` and
`build/lib/publitio/__init__.py`: strings stay strings, Python `dict`s
become insertion-ordered association lists with last-write-wins update,
machine-independent integers stay `Nat`/`Int`, the SHA-1 hash from
`hashlib` is implemented in full over byte lists, and fallible dispatch
returns `Except`.
-/

/-! ### Decimal rendering, the model of Python `str` on non-negative integers -/

/-- One decimal digit character, `d < 10` expected. -/
def digitChar10 (d : Nat) : Char := Char.ofNat (48 + d)

/-- Accumulate the decimal digits of `n` in front of `acc`; `fuel` bounds the digit count. -/
def decAux : Nat → Nat → List Char → List Char
  | 0, _, acc => acc
  | fuel + 1, n, acc =>
    if n = 0 then acc else decAux fuel (n / 10) (digitChar10 (n % 10) :: acc)

/-- Decimal string of a natural number; the model of Python `str(n)` for `n ≥ 0`. -/
def natToDecimal (n : Nat) : String :=
  if n = 0 then "0" else ⟨decAux n n []⟩

/-- Evaluate a digit list back to a number, starting from accumulator `a`. -/
def decValFrom (a : Nat) (l : List Char) : Nat :=
  l.foldl (fun x c => x * 10 + (c.toNat - 48)) a

/-! ### SHA-1 over byte lists, the model of `hashlib.sha1(...).hexdigest()` -/

/-- UTF-8 encoding of a single character, as a byte list. -/
def utf8EncodeChar (c : Char) : List Nat :=
  let n := c.toNat
  if n < 128 then [n]
  else if n < 2048 then [192 + n / 64, 128 + n % 64]
  else if n < 65536 then [224 + n / 4096, 128 + n / 64 % 64, 128 + n % 64]
  else [240 + n / 262144, 128 + n / 4096 % 64, 128 + n / 64 % 64, 128 + n % 64]

/-- UTF-8 bytes of a string; the model of Python `s.encode()`. -/
def utf8Bytes (s : String) : List Nat :=
  s.data.flatMap utf8EncodeChar

/-- Modulus of 32-bit words. -/
def U32 : Nat := 4294967296

/-- Left rotation of a 32-bit word by `n` bits. -/
def rotl32 (n x : Nat) : Nat :=
  (x * 2 ^ n + x / 2 ^ (32 - n)) % U32

/-- SHA-1 padding: append `0x80`, zeros up to 56 mod 64, and the 64-bit big-endian bit length. -/
def sha1Pad (msg : List Nat) : List Nat :=
  let len := msg.length
  let zeros := (119 - len % 64) % 64
  let bitLen := 8 * len
  msg ++ [128] ++ List.replicate zeros 0 ++
    [bitLen / 72057594037927936 % 256, bitLen / 281474976710656 % 256,
     bitLen / 1099511627776 % 256, bitLen / 4294967296 % 256,
     bitLen / 16777216 % 256, bitLen / 65536 % 256,
     bitLen / 256 % 256, bitLen % 256]

/-- Group bytes into big-endian 32-bit words. -/
def bytesToWords : List Nat → List Nat
  | a :: b :: c :: d :: rest => (a * 16777216 + b * 65536 + c * 256 + d) :: bytesToWords rest
  | _ => []

/-- Extend the 16 chunk words with `n` further schedule words. -/
def extendSchedule (ws : List Nat) : Nat → List Nat
  | 0 => ws
  | n + 1 =>
    let l := ws.length
    let w := rotl32 1 ((ws.getD (l - 3) 0) ^^^ (ws.getD (l - 8) 0) ^^^ (ws.getD (l - 14) 0) ^^^ (ws.getD (l - 16) 0))
    extendSchedule (ws ++ [w]) n

/-- Round constant of SHA-1. -/
def sha1K (i : Nat) : Nat :=
  if i < 20 then 1518500249
  else if i < 40 then 1859775393
  else if i < 60 then 2400959708
  else 3395469782

/-- Round boolean function of SHA-1. -/
def sha1F (i b c d : Nat) : Nat :=
  if i < 20 then (b &&& c) ||| ((b ^^^ 4294967295) &&& d)
  else if i < 40 then b ^^^ c ^^^ d
  else if i < 60 then (b &&& c) ||| (b &&& d) ||| (c &&& d)
  else b ^^^ c ^^^ d

/-- Five-word working state of SHA-1. -/
abbrev H5 := Nat × Nat × Nat × Nat × Nat

/-- Run the 80 compression rounds over the schedule words. -/
def sha1Rounds : List Nat → Nat → H5 → H5
  | [], _, st => st
  | w :: ws, i, (a, b, c, d, e) =>
    let temp := (rotl32 5 a + sha1F i b c d + e + sha1K i + w) % U32
    sha1Rounds ws (i + 1) (temp, a, rotl32 30 b, c, d)

/-- Split a byte list into chunks of 64 bytes; `fuel` bounds the chunk count. -/
def chunksOf64Aux : Nat → List Nat → List (List Nat)
  | 0, _ => []
  | _, [] => []
  | fuel + 1, x :: rest => ((x :: rest).take 64) :: chunksOf64Aux fuel (rest.drop 63)

/-- Split a byte list into chunks of 64 bytes. -/
def chunksOf64 (l : List Nat) : List (List Nat) :=
  chunksOf64Aux l.length l

/-- Process one 64-byte chunk into the running hash state. -/
def sha1Chunk (h : H5) (chunk : List Nat) : H5 :=
  let ws := extendSchedule (bytesToWords chunk) 64
  let r := sha1Rounds ws 0 h
  ((h.1 + r.1) % U32, (h.2.1 + r.2.1) % U32, (h.2.2.1 + r.2.2.1) % U32,
   (h.2.2.2.1 + r.2.2.2.1) % U32, (h.2.2.2.2 + r.2.2.2.2) % U32)

/-- Big-endian bytes of a 32-bit word. -/
def wordBytes (w : Nat) : List Nat :=
  [w / 16777216 % 256, w / 65536 % 256, w / 256 % 256, w % 256]

/-- The SHA-1 digest (20 bytes) of a byte list. -/
def sha1 (msg : List Nat) : List Nat :=
  let h := (chunksOf64 (sha1Pad msg)).foldl sha1Chunk
    (1732584193, 4023233417, 2562383102, 271733878, 3285377520)
  wordBytes h.1 ++ wordBytes h.2.1 ++ wordBytes h.2.2.1 ++ wordBytes h.2.2.2.1 ++ wordBytes h.2.2.2.2

/-- Lowercase hexadecimal digit character, `d < 16` expected. -/
def hexChar (d : Nat) : Char :=
  if d < 10 then Char.ofNat (48 + d) else Char.ofNat (87 + d)

/-- Two lowercase hex characters of one byte. -/
def byteHex (b : Nat) : List Char :=
  [hexChar (b / 16 % 16), hexChar (b % 16)]

/-- Lowercase hexadecimal string of a byte list; the model of `.hexdigest()`. -/
def hexdigest (bytes : List Nat) : String :=
  ⟨bytes.flatMap byteHex⟩

/-! ### Signature and nonce generation (`generate_signature`, `generate_nonce`) -/

/-- Embedding of `PublitioAPI.generate_signature`: concatenate
`timestamp + nonce + secret`, SHA-1 the UTF-8 bytes, render the hex digest. -/
def generate_signature (secret timestamp nonce : String) : String :=
  let s := timestamp ++ nonce ++ secret
  hexdigest (sha1 (utf8Bytes s))

/-- Value drawn by `random.randrange(10000000, 99999999)` in
`publitio/publitio.py` and `publitio.py`, as a function of the random draw;
`randrange` excludes its upper bound. -/
def generate_nonce_val (draw : Nat) : Nat :=
  10000000 + draw % (99999999 - 10000000)

/-- Embedding of `generate_nonce` from `publitio/publitio.py` / `publitio.py`:
`str(random.randrange(10000000, 99999999))`. -/
def generate_nonce (draw : Nat) : String :=
  natToDecimal (generate_nonce_val draw)

/-- Value drawn by `secrets.randbelow(100000000 - 10000000) + 10000000` in
`build/lib/publitio/__init__.py`, as a function of the random draw. -/
def generate_nonce_secrets_val (draw : Nat) : Nat :=
  draw % (100000000 - 10000000) + 10000000

/-- Embedding of `generate_nonce` from `build/lib/publitio/__init__.py`. -/
def generate_nonce_secrets (draw : Nat) : String :=
  natToDecimal (generate_nonce_secrets_val draw)

/-! ### Python `dict` model and the payload builders -/

/-- A key is present in the association-list model of a Python `dict`. -/
def containsKey (d : List (String × String)) (k : String) : Bool :=
  d.any (fun p => p.1 == k)

/-- Setting one key in a Python `dict`: overwrite in place if present, else append. -/
def dictInsert (d : List (String × String)) (k v : String) : List (String × String) :=
  if containsKey d k then d.map (fun p => if p.1 == k then (k, v) else p)
  else d ++ [(k, v)]

/-- Embedding of `dict.update`: set every entry of `u` into `d`, left to right. -/
def dictUpdate (d u : List (String × String)) : List (String × String) :=
  u.foldl (fun acc kv => dictInsert acc kv.1 kv.2) d

/-- Embedding of `PublitioAPI.api_payload`, with the timestamp and nonce drawn
by that same call passed explicitly (the code reads the clock and the RNG
afresh on every call and caches nothing). -/
def api_payload (key secret timestamp nonce : String) : List (String × String) :=
  [("api_key", key),
   ("api_timestamp", timestamp),
   ("api_nonce", nonce),
   ("api_signature", generate_signature secret timestamp nonce)]

/-- Embedding of `PublitioAPI.full_payload`: `result = self.api_payload()`
then `result.update(user_payload)`. -/
def full_payload (key secret timestamp nonce : String) (user : List (String × String)) : List (String × String) :=
  dictUpdate (api_payload key secret timestamp nonce) user

/-- The four auth keys produced by `api_payload`. -/
def authKeys : List String :=
  ["api_key", "api_timestamp", "api_nonce", "api_signature"]

/-! ### Status-code classification and request dispatch -/

/-- Embedding of `status_code_is_known`. -/
def status_code_is_known (c : Int) : Bool :=
  (decide (200 ≤ c) && decide (c < 300)) ||
  (decide (400 ≤ c) && decide (c ≤ 406)) ||
  [(410 : Int), 422, 429, 500, 503].contains c

/-- The failures the dispatch layer can raise. -/
inductive ApiFailure where
  | unknownStatusCode (code : Int)
  | badJSON (text : String)
  | transformationFailed (reason : String)

/-- Decoded JSON values, the result type of `res.json()`. -/
inductive Json where
  | null
  | bool (b : Bool)
  | num (n : Int)
  | str (s : String)
  | arr (elems : List Json)
  | obj (fields : List (String × Json))

/-- A mocked HTTP response for the JSON endpoints: its status code, raw body
text, and the outcome of `res.json()` (`none` when the body is not valid
JSON and the JSON parser raises). -/
structure Response where
  status_code : Int
  text : String
  json : Option Json

/-- Embedding of `check_status_code`: raise `UnknownStatusCode` unless known. -/
def check_status_code (c : Int) : Except ApiFailure Unit :=
  if status_code_is_known c then Except.ok () else Except.error (ApiFailure.unknownStatusCode c)

/-- Embedding of `rest_request` (`build/lib/publitio/__init__.py`): check the
status code first, then try to decode the body, raising `BadJSON` with the raw
text when decoding fails. -/
def rest_request (res : Response) : Except ApiFailure Json :=
  match check_status_code res.status_code with
  | Except.error e => Except.error e
  | Except.ok _ =>
    match res.json with
    | some j => Except.ok j
    | none => Except.error (ApiFailure.badJSON res.text)

/-! ### Transformation URL builder and retrieval -/

/-- Index of the last occurrence of `c` in `l`. -/
def lastIdxOf (c : Char) (l : List Char) : Option Nat :=
  match l.reverse.findIdx? (· == c) with
  | some i => some (l.length - 1 - i)
  | none => none

/-- Start index of the final `/`-separated component of a path. -/
def extBase (l : List Char) : Nat :=
  match lastIdxOf '/' l with
  | some i => i + 1
  | none => 0

/-- Whether the dot at index `d` separates an extension: it must lie inside
the final path component, preceded there by at least one non-dot character. -/
def extDotOk (l : List Char) (d : Nat) : Bool :=
  decide (extBase l ≤ d) &&
    ((l.drop (extBase l)).take (d - extBase l)).any (fun ch => ch != '.')

/-- Embedding of `os.path.splitext` (posix): split at the last dot when it
separates an extension; otherwise do not split. -/
def splitext (s : String) : String × String :=
  match lastIdxOf '.' s.data with
  | none => (s, "")
  | some d =>
    if extDotOk s.data d then (⟨s.data.take d⟩, ⟨s.data.drop d⟩)
    else (s, "")

/-- Embedding of `filename_without_extension`. -/
def filename_without_extension (s : String) : String :=
  (splitext s).1

/-- Embedding of `replace_extension` (`build/lib` variant, whose `extension`
may be absent): keep the filename when no extension is given, else replace. -/
def replace_extension (filename : String) : Option String → String
  | none => filename
  | some newExt => filename_without_extension filename ++ "." ++ newExt

/-- Embedding of `str.join(',', ...)`. -/
def joinComma : List String → String
  | [] => ""
  | [x] => x
  | x :: y :: rest => x ++ "," ++ joinComma (y :: rest)

/-- Embedding of `PublitioAPI.transformation_options`: render each entry as
`key_value` and join with commas, in insertion order. -/
def transformation_options (params : List (String × String)) : String :=
  joinComma (params.map (fun p => p.1 ++ "_" ++ p.2))

/-- The media base URL constant of the class. -/
def MEDIA_URL : String := "https://media.publit.io/"

/-- The JSON API base URL constant of the class. -/
def API_URL : String := "https://api.publit.io/v1/"

/-- Embedding of `PublitioAPI.transformation_url`. -/
def transformation_url (filename : String) (extension : Option String) (params : List (String × String)) : String :=
  let fn := replace_extension filename extension
  let options := transformation_options params
  let options_url := if options = "" then "" else options ++ "/"
  MEDIA_URL ++ "file/" ++ options_url ++ fn

/-- The URL builder exactly as the claim words it: the extension is replaced
by splitting the filename on its last `.`, appending the extension only when
the filename has no `.` at all. -/
def transformation_url_claimed (filename : String) (extension : Option String) (params : List (String × String)) : String :=
  let fn := match extension with
    | none => filename
    | some ext =>
      match lastIdxOf '.' filename.data with
      | none => filename ++ "." ++ ext
      | some d => (⟨filename.data.take d⟩ : String) ++ "." ++ ext
  let seg := if params.isEmpty then "" else transformation_options params ++ "/"
  MEDIA_URL ++ "file/" ++ seg ++ fn

/-- The split position `splitext` actually uses, if any: the last `.`, kept
only when it falls inside the final path component and some non-dot
character precedes it there. -/
def extSplitIndex (s : String) : Option Nat :=
  match lastIdxOf '.' s.data with
  | none => none
  | some d => if extDotOk s.data d then some d else none

/-- A mocked plain HTTP response for the media URL: `ok` flag, reason phrase,
and raw body bytes. -/
structure HttpResponse where
  ok : Bool
  reason : String
  content : List Nat

/-- Embedding of `PublitioAPI.transformed`: build the transformation URL,
issue a plain GET against it, raise `TransformationFailed` with the reason
phrase on a non-OK response, and return the raw bytes otherwise. -/
def transformed (fetch : String → HttpResponse) (filename : String) (extension : Option String) (params : List (String × String)) : Except ApiFailure (List Nat) :=
  let url := transformation_url filename extension params
  let res := fetch url
  if res.ok then Except.ok res.content
  else Except.error (ApiFailure.transformationFailed res.reason)

/-! ### The exception class hierarchy of the three modules -/

/-- The Python exception classes involved: the two built-in roots and the
failure classes declared in each module. -/
inductive PyClass where
  | baseException
  | exception
  | pkgUnknownStatusCode
  | pkgTransformationFailed
  | modUnknownStatusCode
  | buildUnknownStatusCode
  | buildTransformationFailed
  | buildBadJSON
deriving DecidableEq

/-- Declared base class of each class, read off the `class ... (Base):`
headers: `publitio/publitio.py` (pkg) and `publitio.py` (mod) derive their
failures from `BaseException`; `build/lib/publitio/__init__.py` (build)
derives them from `Exception`. -/
def pyBase : PyClass → Option PyClass
  | PyClass.baseException => none
  | PyClass.exception => some PyClass.baseException
  | PyClass.pkgUnknownStatusCode => some PyClass.baseException
  | PyClass.pkgTransformationFailed => some PyClass.baseException
  | PyClass.modUnknownStatusCode => some PyClass.baseException
  | PyClass.buildUnknownStatusCode => some PyClass.exception
  | PyClass.buildTransformationFailed => some PyClass.exception
  | PyClass.buildBadJSON => some PyClass.exception

/-- Reflexive-transitive subclass test, with enough fuel for this hierarchy. -/
def isSubclassOfAux : Nat → PyClass → PyClass → Bool
  | 0, _, _ => false
  | fuel + 1, c, d =>
    c == d ||
    match pyBase c with
    | some b => isSubclassOfAux fuel b d
    | none => false

/-- `isSubclassOf c d` holds when `c` is `d` or transitively derives from it. -/
def isSubclassOf (c d : PyClass) : Bool :=
  isSubclassOfAux 8 c d

/-- An `except H:` handler catches a raised instance of class `r` exactly
when `r` is a subclass of `H`. -/
def catches (handler raised : PyClass) : Bool :=
  isSubclassOf raised handler

/-! ### Lemmas about the decimal rendering -/

theorem digitChar10_toNat : ∀ d < 10, (digitChar10 d).toNat = 48 + d := by decide

theorem decValFrom_decAux : ∀ fuel n acc, n ≤ fuel → decValFrom 0 (decAux fuel n acc) = decValFrom n acc := by
  intro fuel
  induction fuel with
  | zero =>
    intro n acc h
    interval_cases n
    rfl
  | succ f ih =>
    intro n acc h
    by_cases hn : n = 0
    · subst hn
      simp [decAux]
    · rw [decAux]
      simp only [hn, if_false]
      rw [ih (n / 10) _ (by omega)]
      show decValFrom (n / 10 * 10 + ((digitChar10 (n % 10)).toNat - 48)) acc = _
      rw [digitChar10_toNat (n % 10) (Nat.mod_lt _ (by omega))]
      congr 1
      omega

/-- The decimal rendering is left-inverted by digit evaluation. -/
theorem decValFrom_natToDecimal (n : Nat) : decValFrom 0 (natToDecimal n).data = n := by
  cases n with
  | zero => rfl
  | succ m =>
    have h : natToDecimal (m + 1) = ⟨decAux (m + 1) (m + 1) []⟩ := by
      unfold natToDecimal
      simp
    rw [h]
    exact decValFrom_decAux (m + 1) (m + 1) [] (Nat.le_refl _)

theorem natToDecimal_injective {m n : Nat} (h : natToDecimal m = natToDecimal n) : m = n := by
  have hm := decValFrom_natToDecimal m
  have hn := decValFrom_natToDecimal n
  rw [h, hn] at hm
  exact hm.symm

/-! ### Association-list lemmas for the `dict` model -/

theorem lookup_cons_same (k v : String) (rest : List (String × String)) :
    List.lookup k ((k, v) :: rest) = some v := by
  simp [List.lookup]

theorem lookup_cons_diff {k k1 : String} (v : String) (rest : List (String × String)) (h : (k == k1) = false) :
    List.lookup k ((k1, v) :: rest) = List.lookup k rest := by
  simp [List.lookup, h]

theorem overwrite_fst (k v : String) (p : String × String) :
    (if p.1 == k then (k, v) else p).1 = p.1 := by
  by_cases h : (p.1 == k) = true
  · simp [h, eq_of_beq h]
  · simp [h]

theorem containsKey_map_overwrite (d : List (String × String)) (k v k' : String) :
    containsKey (d.map fun p => if p.1 == k then (k, v) else p) k' = containsKey d k' := by
  induction d with
  | nil => rfl
  | cons p rest ih =>
    simp only [containsKey, List.map_cons, List.any_cons] at *
    rw [overwrite_fst, ih]

theorem containsKey_append (d e : List (String × String)) (k : String) :
    containsKey (d ++ e) k = (containsKey d k || containsKey e k) := by
  simp [containsKey, List.any_append]

theorem containsKey_dictInsert (d : List (String × String)) (k v k' : String) :
    containsKey (dictInsert d k v) k' = (containsKey d k' || k == k') := by
  unfold dictInsert
  by_cases h : containsKey d k = true
  · rw [if_pos h, containsKey_map_overwrite]
    by_cases hk : (k == k') = true
    · have : k = k' := eq_of_beq hk
      subst this
      simp [h]
    · simp [Bool.not_eq_true] at hk
      simp [hk]
  · simp only [Bool.not_eq_true] at h
    rw [if_neg (by simp [h]), containsKey_append]
    simp [containsKey]

theorem lookup_of_not_containsKey {d : List (String × String)} {k : String}
    (h : containsKey d k = false) : List.lookup k d = none := by
  induction d with
  | nil => rfl
  | cons p rest ih =>
    simp only [containsKey, List.any_cons, Bool.or_eq_false_iff] at h
    obtain ⟨h1, h2⟩ := h
    have hk : (k == p.1) = false := by
      rw [beq_eq_false_iff_ne] at h1 ⊢
      exact fun he => h1 he.symm
    obtain ⟨p1, p2⟩ := p
    rw [lookup_cons_diff p2 rest hk]
    exact ih h2

theorem lookup_map_overwrite_self (d : List (String × String)) (k v : String)
    (h : containsKey d k = true) :
    List.lookup k (d.map fun p => if p.1 == k then (k, v) else p) = some v := by
  induction d with
  | nil => simp [containsKey] at h
  | cons q rs ih =>
    by_cases hq : (q.1 == k) = true
    · simp only [List.map_cons, hq, if_true]
      exact lookup_cons_same k v _
    · simp only [Bool.not_eq_true] at hq
      have hk : (k == q.1) = false := by
        rw [beq_eq_false_iff_ne] at hq ⊢
        exact fun he => hq he.symm
      simp only [List.map_cons, hq, Bool.false_eq_true, if_false]
      obtain ⟨q1, q2⟩ := q
      rw [lookup_cons_diff q2 _ hk]
      simp only [containsKey, List.any_cons, hq, Bool.false_or] at h
      exact ih h

theorem lookup_map_overwrite_diff (d : List (String × String)) (k v k' : String)
    (h : (k' == k) = false) :
    List.lookup k' (d.map fun p => if p.1 == k then (k, v) else p) = List.lookup k' d := by
  induction d with
  | nil => rfl
  | cons q rs ih =>
    obtain ⟨q1, q2⟩ := q
    by_cases hq : (q1 == k) = true
    · have hq1 : q1 = k := eq_of_beq hq
      subst hq1
      simp only [List.map_cons, hq, if_true]
      rw [lookup_cons_diff v _ h, lookup_cons_diff q2 _ h]
      exact ih
    · simp only [Bool.not_eq_true] at hq
      simp only [List.map_cons, hq, Bool.false_eq_true, if_false]
      by_cases hkq : (k' == q1) = true
      · have : k' = q1 := eq_of_beq hkq
        subst this
        rw [lookup_cons_same, lookup_cons_same]
      · simp only [Bool.not_eq_true] at hkq
        rw [lookup_cons_diff q2 _ hkq, lookup_cons_diff q2 _ hkq]
        exact ih

theorem lookup_append_right_of_none (d e : List (String × String)) (k : String)
    (h : List.lookup k d = none) : List.lookup k (d ++ e) = List.lookup k e := by
  induction d with
  | nil => rfl
  | cons q rs ih =>
    obtain ⟨q1, q2⟩ := q
    by_cases hkq : (k == q1) = true
    · have : k = q1 := eq_of_beq hkq
      subst this
      rw [lookup_cons_same] at h
      exact absurd h (by simp)
    · simp only [Bool.not_eq_true] at hkq
      rw [lookup_cons_diff q2 _ hkq] at h
      rw [List.cons_append, lookup_cons_diff q2 _ hkq]
      exact ih h

theorem lookup_dictInsert_self (d : List (String × String)) (k v : String) :
    List.lookup k (dictInsert d k v) = some v := by
  unfold dictInsert
  by_cases h : containsKey d k = true
  · rw [if_pos h]
    exact lookup_map_overwrite_self d k v h
  · simp only [Bool.not_eq_true] at h
    rw [if_neg (by simp [h])]
    rw [lookup_append_right_of_none d _ k (lookup_of_not_containsKey h)]
    exact lookup_cons_same k v []

theorem lookup_dictInsert_diff (d : List (String × String)) {k k' : String} (v : String)
    (h : (k' == k) = false) : List.lookup k' (dictInsert d k v) = List.lookup k' d := by
  unfold dictInsert
  by_cases hc : containsKey d k = true
  · rw [if_pos hc]
    exact lookup_map_overwrite_diff d k v k' h
  · simp only [Bool.not_eq_true] at hc
    rw [if_neg (by simp [hc])]
    induction d with
    | nil => simp [List.lookup, h]
    | cons q rs ih =>
      obtain ⟨q1, q2⟩ := q
      by_cases hkq : (k' == q1) = true
      · have : k' = q1 := eq_of_beq hkq
        subst this
        rw [List.cons_append, lookup_cons_same, lookup_cons_same]
      · simp only [Bool.not_eq_true] at hkq
        rw [List.cons_append, lookup_cons_diff q2 _ hkq, lookup_cons_diff q2 _ hkq]
        apply ih
        simp only [containsKey, List.any_cons, Bool.or_eq_false_iff] at hc
        exact hc.2

theorem containsKey_dictUpdate (d u : List (String × String)) (k : String) :
    containsKey (dictUpdate d u) k = (containsKey d k || containsKey u k) := by
  induction u generalizing d with
  | nil => simp [dictUpdate, containsKey]
  | cons p rest ih =>
    obtain ⟨p1, p2⟩ := p
    show containsKey (dictUpdate (dictInsert d p1 p2) rest) k = _
    rw [ih, containsKey_dictInsert]
    simp only [containsKey, List.any_cons]
    by_cases hp : (p1 == k) = true
    · simp [hp]
    · simp only [Bool.not_eq_true] at hp
      simp [hp]

theorem lookup_dictUpdate_of_not_mem (d u : List (String × String)) (k : String)
    (h : containsKey u k = false) : List.lookup k (dictUpdate d u) = List.lookup k d := by
  induction u generalizing d with
  | nil => rfl
  | cons p rest ih =>
    obtain ⟨p1, p2⟩ := p
    simp only [containsKey, List.any_cons, Bool.or_eq_false_iff] at h
    obtain ⟨h1, h2⟩ := h
    have hk : (k == p1) = false := by
      rw [beq_eq_false_iff_ne] at h1 ⊢
      exact fun he => h1 he.symm
    show List.lookup k (dictUpdate (dictInsert d p1 p2) rest) = _
    rw [ih _ h2, lookup_dictInsert_diff d p2 hk]

theorem lookup_dictUpdate_of_lookup (d u : List (String × String)) (k v : String)
    (hnd : (u.map Prod.fst).Nodup) (h : List.lookup k u = some v) :
    List.lookup k (dictUpdate d u) = some v := by
  induction u generalizing d with
  | nil => simp [List.lookup] at h
  | cons p rest ih =>
    obtain ⟨p1, p2⟩ := p
    simp only [List.map_cons, List.nodup_cons] at hnd
    obtain ⟨hp1, hndr⟩ := hnd
    by_cases hkp : (k == p1) = true
    · have hk : k = p1 := eq_of_beq hkp
      subst hk
      rw [lookup_cons_same] at h
      have hv : p2 = v := by injection h
      subst hv
      show List.lookup k (dictUpdate (dictInsert d k p2) rest) = some p2
      have hrest : containsKey rest k = false := by
        by_contra hcc
        rw [Bool.not_eq_false] at hcc
        simp only [containsKey, List.any_eq_true] at hcc
        obtain ⟨q, hq, hqk⟩ := hcc
        have hq1 : q.1 = k := eq_of_beq hqk
        exact hp1 (hq1 ▸ List.mem_map_of_mem Prod.fst hq)
      rw [lookup_dictUpdate_of_not_mem _ _ _ hrest]
      exact lookup_dictInsert_self d k p2
    · simp only [Bool.not_eq_true] at hkp
      rw [lookup_cons_diff p2 _ hkp] at h
      show List.lookup k (dictUpdate (dictInsert d p1 p2) rest) = some v
      exact ih _ hndr h

/-! ### Lemmas about the hex rendering and the URL builder -/

theorem hexChar_mem_alphabet : ∀ d < 16, hexChar d ∈ ("0123456789abcdef").data := by decide

theorem hexdigest_chars_lower (bytes : List Nat) (c : Char)
    (hc : c ∈ (hexdigest bytes).data) : c ∈ ("0123456789abcdef").data := by
  have h : c ∈ bytes.flatMap byteHex := hc
  rw [List.mem_flatMap] at h
  obtain ⟨b, _, hcb⟩ := h
  simp only [byteHex, List.mem_cons, List.not_mem_nil, or_false] at hcb
  rcases hcb with h1 | h2
  · rw [h1]
    exact hexChar_mem_alphabet _ (Nat.mod_lt _ (by omega))
  · rw [h2]
    exact hexChar_mem_alphabet _ (Nat.mod_lt _ (by omega))

theorem joinComma_cons_length (x : String) (l : List String) :
    x.length ≤ (joinComma (x :: l)).length := by
  cases l with
  | nil => exact Nat.le_refl _
  | cons y r =>
    show x.length ≤ (x ++ "," ++ joinComma (y :: r)).length
    simp only [String.length_append]
    omega

theorem transformation_options_cons_ne (p : String × String) (rest : List (String × String)) :
    transformation_options (p :: rest) ≠ "" := by
  intro h
  have h1 : (p.1 ++ "_" ++ p.2).length ≤ (transformation_options (p :: rest)).length := by
    unfold transformation_options
    simp only [List.map_cons]
    exact joinComma_cons_length _ _
  rw [h] at h1
  simp only [String.length_append] at h1
  have h2 : ("_" : String).length = 1 := rfl
  have h3 : ("" : String).length = 0 := rfl
  omega

theorem options_url_isEmpty (params : List (String × String)) :
    (if transformation_options params = "" then "" else transformation_options params ++ "/") =
      (if params.isEmpty then "" else transformation_options params ++ "/") := by
  cases params with
  | nil => simp [transformation_options, joinComma]
  | cons p rest =>
    rw [if_neg (transformation_options_cons_ne p rest)]
    rfl

theorem splitext_of_extSplitIndex_none {s : String} (h : extSplitIndex s = none) :
    splitext s = (s, "") := by
  unfold extSplitIndex at h
  unfold splitext
  cases hd : lastIdxOf '.' s.data with
  | none => rfl
  | some d =>
    simp only [hd] at h ⊢
    by_cases hc : extDotOk s.data d = true
    · simp [hc] at h
    · simp only [Bool.not_eq_true] at hc
      simp [hc]

theorem splitext_of_extSplitIndex_some {s : String} {d : Nat} (h : extSplitIndex s = some d) :
    splitext s = (⟨s.data.take d⟩, ⟨s.data.drop d⟩) := by
  unfold extSplitIndex at h
  unfold splitext
  cases hd : lastIdxOf '.' s.data with
  | none =>
    rw [hd] at h
    cases h
  | some d0 =>
    simp only [hd] at h ⊢
    by_cases hc : extDotOk s.data d0 = true
    · simp only [hc, if_true] at h ⊢
      have hdd : d0 = d := by injection h
      subst hdd
      rfl
    · simp [hc] at h

/-! ### Test vectors pinning the SHA-1 embedding to `hashlib` -/

/-- Known digest of the empty message. -/
theorem sha1_empty_vector :
    hexdigest (sha1 (utf8Bytes "")) = "da39a3ee5e6b4b0d3255bfef95601890afd80709" := by decide

/-- Known digest of `"abc"`. -/
theorem sha1_abc_vector :
    hexdigest (sha1 (utf8Bytes "abc")) = "a9993e364706816aba3e25717850c26c9cd0d89d" := by decide

/-- Known digest of the concatenation `"100" + "200" + "secret"`. -/
theorem generate_signature_vector :
    generate_signature "secret" "100" "200" = "3713089d4482291113be3c4cb5dcc42546e77d07" := by decide

/-! ### Claim theorems -/

/-- C1: for every secret, timestamp string and nonce string,
`generate_signature` returns the lowercase hexadecimal SHA-1 digest of the
UTF-8 bytes of the concatenation `timestamp + nonce + secret`, in exactly
that order (first conjunct; the characters of the result are lowercase hex
digits by the second conjunct), and it is a deterministic pure function of
the three inputs (third conjunct). -/
theorem generate_signature_is_sha1_hex :
    ∀ secret timestamp nonce : String,
      generate_signature secret timestamp nonce =
        hexdigest (sha1 (utf8Bytes (timestamp ++ nonce ++ secret))) ∧
      (∀ c ∈ (generate_signature secret timestamp nonce).data, c ∈ ("0123456789abcdef").data) ∧
      (∀ secret2 timestamp2 nonce2 : String,
        secret = secret2 → timestamp = timestamp2 → nonce = nonce2 →
        generate_signature secret timestamp nonce = generate_signature secret2 timestamp2 nonce2) := by
  intro s t n
  refine ⟨rfl, ?_, ?_⟩
  · intro c hc
    exact hexdigest_chars_lower _ c hc
  · intro s2 t2 n2 h1 h2 h3
    rw [h1, h2, h3]

/-- Witness for C1 at a concrete triple: the character `'d'` of the digest of
`("secret", "100", "200")` is a lowercase hex digit, and determinism holds at
that triple. -/
theorem generate_signature_is_sha1_hex_witness :
    'd' ∈ ("0123456789abcdef").data ∧
    generate_signature "secret" "100" "200" = generate_signature "secret" "100" "200" :=
  ⟨(generate_signature_is_sha1_hex "secret" "100" "200").2.1 'd' (by decide),
   (generate_signature_is_sha1_hex "secret" "100" "200").2.2 "secret" "100" "200" rfl rfl rfl⟩

/-- C2: `status_code_is_known` is true exactly on `[200,300) ∪ [400,406] ∪
{410, 422, 429, 500, 503}`, and on any other status code `rest_request`
raises `UnknownStatusCode` whatever the body holds — in particular before the
body is parsed, since the error is produced even when `res.json` is `none`. -/
theorem status_code_known_iff_and_unknown_raises :
    (∀ c : Int, status_code_is_known c = true ↔
      ((200 ≤ c ∧ c < 300) ∨ (400 ≤ c ∧ c ≤ 406) ∨
        c = 410 ∨ c = 422 ∨ c = 429 ∨ c = 500 ∨ c = 503)) ∧
    (∀ res : Response, status_code_is_known res.status_code = false →
      rest_request res = Except.error (ApiFailure.unknownStatusCode res.status_code)) := by
  constructor
  · intro c
    unfold status_code_is_known
    simp [List.contains]
    tauto
  · intro res h
    simp [rest_request, check_status_code, h]

/-- Witness for C2 at status 301: dispatch fails with the unknown-status
error even though the body decodes. -/
theorem status_code_known_iff_and_unknown_raises_witness :
    rest_request ⟨301, "redirect", some Json.null⟩ =
      Except.error (ApiFailure.unknownStatusCode 301) :=
  status_code_known_iff_and_unknown_raises.2 ⟨301, "redirect", some Json.null⟩ (by decide)

/-- C3: on a known status code whose body is not valid JSON, `rest_request`
raises `BadJSON` carrying the raw response text; in particular a mocked
response with status 500 and non-JSON body `"oops"` yields the
malformed-response failure containing `"oops"`. -/
theorem rest_request_bad_json_raises :
    (∀ res : Response, status_code_is_known res.status_code = true → res.json = none →
      rest_request res = Except.error (ApiFailure.badJSON res.text)) ∧
    rest_request ⟨500, "oops", none⟩ = Except.error (ApiFailure.badJSON "oops") := by
  constructor
  · intro res h hj
    simp [rest_request, check_status_code, h, hj]
  · rfl

/-- Witness for C3 at a concrete known status with an undecodable body. -/
theorem rest_request_bad_json_raises_witness :
    rest_request ⟨503, "oops", none⟩ = Except.error (ApiFailure.badJSON "oops") :=
  rest_request_bad_json_raises.1 ⟨503, "oops", none⟩ (by decide) rfl

/-- C4: the merged payload holds exactly the four auth keys plus all
caller-supplied keys, and a caller-supplied value wins on a key collision. -/
theorem full_payload_exact_keys_and_precedence :
    ∀ (key secret timestamp nonce : String) (user : List (String × String)),
      (∀ k : String, containsKey (full_payload key secret timestamp nonce user) k = true ↔
        (k ∈ authKeys ∨ containsKey user k = true)) ∧
      ((user.map Prod.fst).Nodup →
        ∀ k v : String, List.lookup k user = some v →
          List.lookup k (full_payload key secret timestamp nonce user) = some v) := by
  intro key secret ts nonce user
  constructor
  · intro k
    unfold full_payload
    rw [containsKey_dictUpdate]
    simp only [Bool.or_eq_true]
    have hap : containsKey (api_payload key secret ts nonce) k = true ↔ k ∈ authKeys := by
      simp only [containsKey, api_payload, authKeys, List.any_cons, List.any_nil,
        Bool.or_false, Bool.or_eq_true, beq_iff_eq, List.mem_cons, List.not_mem_nil, or_false]
      constructor
      · rintro (h | h | h | h) <;> simp [h]
      · rintro (h | h | h | h) <;> simp [h]
    rw [hap]
  · intro hnd k v h
    exact lookup_dictUpdate_of_lookup _ user k v hnd h

/-- Witness for C4: with a caller map that collides on `api_key` and adds
`extra`, the caller value wins and `extra` is reported among the keys. -/
theorem full_payload_exact_keys_and_precedence_witness :
    List.lookup "api_key" (full_payload "k" "s" "t" "n" [("api_key", "override"), ("extra", "1")]) =
      some "override" ∧
    (containsKey (full_payload "k" "s" "t" "n" [("api_key", "override"), ("extra", "1")]) "extra" = true ↔
      ("extra" ∈ authKeys ∨ containsKey [("api_key", "override"), ("extra", "1")] "extra" = true)) :=
  ⟨(full_payload_exact_keys_and_precedence "k" "s" "t" "n"
      [("api_key", "override"), ("extra", "1")]).2 (by decide) "api_key" "override" rfl,
   (full_payload_exact_keys_and_precedence "k" "s" "t" "n"
      [("api_key", "override"), ("extra", "1")]).1 "extra"⟩

/-- C5: the `randrange`-based `generate_nonce` of `publitio/publitio.py`
always yields the decimal string of a value in `[10000000, 99999998]` and can
never return `"99999999"`, because `randrange` excludes its upper bound; the
`secrets`-based variant of `build/lib/publitio/__init__.py` does reach
`99999999`, which is what the claim (and the spec) describe. -/
theorem generate_nonce_upper_bound_bug :
    (∀ draw : Nat,
      10000000 ≤ generate_nonce_val draw ∧
      generate_nonce_val draw ≤ 99999998 ∧
      generate_nonce draw = natToDecimal (generate_nonce_val draw) ∧
      (generate_nonce draw == "99999999") = false) ∧
    generate_nonce_secrets_val 89999999 = 99999999 ∧
    generate_nonce_secrets 89999999 = "99999999" := by
  refine ⟨?_, by decide, by decide⟩
  intro draw
  have h1 : draw % (99999999 - 10000000) < 89999999 := Nat.mod_lt _ (by omega)
  refine ⟨by unfold generate_nonce_val; omega, by unfold generate_nonce_val; omega, rfl, ?_⟩
  rw [beq_eq_false_iff_ne]
  intro he
  have h9 : ("99999999" : String) = natToDecimal 99999999 := by decide
  have he2 : natToDecimal (generate_nonce_val draw) = natToDecimal 99999999 := by
    have hg : generate_nonce draw = natToDecimal (generate_nonce_val draw) := rfl
    rw [← hg, he]
    exact h9
  have hv : generate_nonce_val draw = 99999999 := natToDecimal_injective he2
  unfold generate_nonce_val at hv
  omega

/-- C6: on a known status code with a well-formed JSON body, `rest_request`
returns the decoded value unchanged and raises nothing, even when the JSON
encodes an API-level error. -/
theorem rest_request_returns_decoded_json :
    ∀ (res : Response) (j : Json),
      status_code_is_known res.status_code = true → res.json = some j →
      rest_request res = Except.ok j := by
  intro res j h hj
  simp [rest_request, check_status_code, h, hj]

/-- Witness for C6: a mocked 404 response whose body is the JSON object
`\x7b"error": "not found"\x7d` is returned decoded, with no failure. -/
theorem rest_request_returns_decoded_json_witness :
    rest_request ⟨404, "\x7b\"error\": \"not found\"\x7d",
        some (Json.obj [("error", Json.str "not found")])⟩ =
      Except.ok (Json.obj [("error", Json.str "not found")]) :=
  rest_request_returns_decoded_json _ _ (by decide) rfl

/-- C7 counterexample: for the leading-dot filename `".bashrc"` with extension
`"png"` the code appends (because `os.path.splitext` does not treat a leading
dot as an extension separator), while the claim's rule — split on the last
`.`, appending only when the filename has no `.` — would strip `bashrc`.
So the claim as stated is false at this input. -/
theorem transformation_url_last_dot_counterexample :
    transformation_url ".bashrc" (some "png") [] = "https://media.publit.io/file/.bashrc.png" ∧
    transformation_url_claimed ".bashrc" (some "png") [] = "https://media.publit.io/file/.png" ∧
    (transformation_url ".bashrc" (some "png") [] ==
      transformation_url_claimed ".bashrc" (some "png") []) = false := by
  refine ⟨by decide, by decide, by decide⟩

/-- C7 (amended): `transformation_url` returns
`MEDIA_URL ++ "file/" ++ options-segment ++ filename-with-extension`, where
the options segment renders each entry as `key_value` joined with commas and
is omitted (with its trailing slash) exactly when the option map is empty,
and a provided extension replaces the part of the filename from its last `.`
on — except that the `.` is ignored (the extension is appended instead) when
it is not preceded by a non-dot character inside the final `/`-separated
component, exactly as `os.path.splitext` decides via `extSplitIndex`;
the claim's two concrete examples close the statement. -/
theorem transformation_url_shape_amended :
    ∀ (filename ext : String) (extension : Option String) (params : List (String × String)),
      (transformation_url filename extension params =
        MEDIA_URL ++ "file/" ++
          (if params.isEmpty then "" else transformation_options params ++ "/") ++
          replace_extension filename extension) ∧
      (extSplitIndex filename = none →
        replace_extension filename (some ext) = filename ++ "." ++ ext) ∧
      (∀ d : Nat, extSplitIndex filename = some d →
        replace_extension filename (some ext) = (⟨filename.data.take d⟩ : String) ++ "." ++ ext) ∧
      transformation_url "photo.jpg" (some "png") [("w", "300")] =
        "https://media.publit.io/file/w_300/photo.png" ∧
      transformation_url "photo.jpg" none [] = "https://media.publit.io/file/photo.jpg" := by
  intro filename ext extension params
  refine ⟨?_, ?_, ?_, by decide, by decide⟩
  · show MEDIA_URL ++ "file/" ++
      (if transformation_options params = "" then "" else transformation_options params ++ "/") ++
      replace_extension filename extension = _
    rw [options_url_isEmpty]
  · intro h
    show filename_without_extension filename ++ "." ++ ext = _
    unfold filename_without_extension
    rw [splitext_of_extSplitIndex_none h]
  · intro d h
    show filename_without_extension filename ++ "." ++ ext = _
    unfold filename_without_extension
    rw [splitext_of_extSplitIndex_some h]

/-- Witness for C7 (amended) discharging both extension cases concretely:
`".bashrc"` has no splittable dot so the extension is appended, and
`"photo.jpg"` splits at index 5. -/
theorem transformation_url_shape_amended_witness :
    replace_extension ".bashrc" (some "png") = ".bashrc" ++ "." ++ "png" ∧
    replace_extension "photo.jpg" (some "png") = (⟨("photo.jpg").data.take 5⟩ : String) ++ "." ++ "png" :=
  ⟨(transformation_url_shape_amended ".bashrc" "png" none []).2.1 (by decide),
   (transformation_url_shape_amended "photo.jpg" "png" none []).2.2.1 5 (by decide)⟩

/-- C8: `transformed` raises `TransformationFailed` carrying the HTTP reason
phrase exactly when the GET against the built transformation URL is non-OK,
and returns the raw response bytes on an OK response. -/
theorem transformed_failure_iff_not_ok :
    ∀ (fetch : String → HttpResponse) (filename : String) (extension : Option String)
      (params : List (String × String)),
      ((fetch (transformation_url filename extension params)).ok = false →
        transformed fetch filename extension params =
          Except.error (ApiFailure.transformationFailed
            (fetch (transformation_url filename extension params)).reason)) ∧
      ((fetch (transformation_url filename extension params)).ok = true →
        transformed fetch filename extension params =
          Except.ok (fetch (transformation_url filename extension params)).content) ∧
      ((∃ r : String, transformed fetch filename extension params =
          Except.error (ApiFailure.transformationFailed r)) ↔
        (fetch (transformation_url filename extension params)).ok = false) := by
  intro fetch fn ext ps
  refine ⟨?_, ?_, ?_, ?_⟩
  · intro h
    simp [transformed, h]
  · intro h
    simp [transformed, h]
  · rintro ⟨r, hr⟩
    by_contra hok
    rw [Bool.not_eq_false] at hok
    simp [transformed, hok] at hr
  · intro h
    exact ⟨(fetch (transformation_url fn ext ps)).reason, by simp [transformed, h]⟩

/-- Witness for C8 at a mocked failing GET and a mocked successful GET. -/
theorem transformed_failure_iff_not_ok_witness :
    transformed (fun _ => ⟨false, "Not Found", []⟩) "photo.jpg" (some "png") [("w", "300")] =
      Except.error (ApiFailure.transformationFailed "Not Found") ∧
    transformed (fun _ => ⟨true, "OK", [1, 2, 3]⟩) "photo.jpg" none [] =
      Except.ok [1, 2, 3] :=
  ⟨(transformed_failure_iff_not_ok (fun _ => ⟨false, "Not Found", []⟩)
      "photo.jpg" (some "png") [("w", "300")]).1 rfl,
   (transformed_failure_iff_not_ok (fun _ => ⟨true, "OK", [1, 2, 3]⟩)
      "photo.jpg" none []).2.1 rfl⟩

/-- C9: the auth payload is internally consistent and fresh: its
`api_signature` entry is the signature of that very call's timestamp and
nonce with the secret, its `api_timestamp` and `api_nonce` entries expose
exactly that call's draws, and two payload constructions can only coincide
when they used the same timestamp/nonce pair — so distinct fresh draws give
distinct payloads and no pair is silently reused or cached. -/
theorem api_payload_signature_consistency :
    ∀ key secret timestamp nonce : String,
      List.lookup "api_signature" (api_payload key secret timestamp nonce) =
        some (generate_signature secret timestamp nonce) ∧
      List.lookup "api_timestamp" (api_payload key secret timestamp nonce) = some timestamp ∧
      List.lookup "api_nonce" (api_payload key secret timestamp nonce) = some nonce ∧
      (∀ key2 secret2 timestamp2 nonce2 : String,
        api_payload key secret timestamp nonce = api_payload key2 secret2 timestamp2 nonce2 →
        timestamp = timestamp2 ∧ nonce = nonce2) := by
  intro key secret ts nonce
  refine ⟨rfl, rfl, rfl, ?_⟩
  intro k2 s2 t2 n2 h
  have ht : (some ts : Option String) = some t2 := by
    calc (some ts : Option String)
        = List.lookup "api_timestamp" (api_payload key secret ts nonce) := rfl
      _ = List.lookup "api_timestamp" (api_payload k2 s2 t2 n2) := by rw [h]
      _ = some t2 := rfl
  have hn : (some nonce : Option String) = some n2 := by
    calc (some nonce : Option String)
        = List.lookup "api_nonce" (api_payload key secret ts nonce) := rfl
      _ = List.lookup "api_nonce" (api_payload k2 s2 t2 n2) := by rw [h]
      _ = some n2 := rfl
  exact ⟨Option.some.inj ht, Option.some.inj hn⟩

/-- Witness for C9 at a concrete payload, discharging the equality
hypothesis reflexively. -/
theorem api_payload_signature_consistency_witness :
    "t" = "t" ∧ "n" = "n" :=
  (api_payload_signature_consistency "k" "s" "t" "n").2.2.2 "k" "s" "t" "n" rfl

/-- C10: the failure classes of `publitio/publitio.py` (pkg) and
`publitio.py` (mod) derive from `BaseException` but not from `Exception`, so
a generic `except Exception:` handler never catches them; the failure
classes of `build/lib/publitio/__init__.py` (build) derive from `Exception`
and are caught by such a handler. -/
theorem failure_class_hierarchy :
    (isSubclassOf PyClass.pkgUnknownStatusCode PyClass.baseException = true ∧
      isSubclassOf PyClass.pkgUnknownStatusCode PyClass.exception = false ∧
      catches PyClass.exception PyClass.pkgUnknownStatusCode = false) ∧
    (isSubclassOf PyClass.pkgTransformationFailed PyClass.baseException = true ∧
      isSubclassOf PyClass.pkgTransformationFailed PyClass.exception = false ∧
      catches PyClass.exception PyClass.pkgTransformationFailed = false) ∧
    (isSubclassOf PyClass.modUnknownStatusCode PyClass.baseException = true ∧
      isSubclassOf PyClass.modUnknownStatusCode PyClass.exception = false ∧
      catches PyClass.exception PyClass.modUnknownStatusCode = false) ∧
    (isSubclassOf PyClass.buildUnknownStatusCode PyClass.exception = true ∧
      catches PyClass.exception PyClass.buildUnknownStatusCode = true) ∧
    (isSubclassOf PyClass.buildTransformationFailed PyClass.exception = true ∧
      catches PyClass.exception PyClass.buildTransformationFailed = true) ∧
    (isSubclassOf PyClass.buildBadJSON PyClass.exception = true ∧
      catches PyClass.exception PyClass.buildBadJSON = true) := by
  decide
